import Mathlib

/-!
Shallow embedding of the outline-extraction core of the repository
(`src/app/outline_extractor.py`, with the parser record layout of
`src/app/pdf_parser.py`), and proofs about the claims C1-C10.

Modelling conventions:
* Python floats are modelled as exact rationals (`ℚ`); `round(x, 1)` is
  modelled as exact round-half-to-even of `10 * x` (CPython's rounding mode).
* Python strings are Lean `String`s; the `re` patterns used by the source are
  translated into explicit character-list parsers (texts are assumed free of
  newlines, as the parser joins spans of one rendered line).  `str.lower`,
  `str.strip`, `str.split()` are modelled character-wise over ASCII, which
  covers the texts the heuristics inspect.
* `list.sort` / `sorted` (CPython Timsort) are stable sorts; they are modelled
  by a stable insertion sort with the same comparator, which computes the same
  list.
* Python dict / `Counter` iteration order is insertion order; groupings are
  modelled as association lists in first-occurrence order.
-/

/- Core `Rat` arithmetic is `@[irreducible]`, which only blocks unfolding
during elaboration; re-mark it so that concrete runs of the model reduce. -/
set_option allowUnsafeReducibility true in
attribute [semireducible] Rat.mul Rat.add Rat.inv Rat.sub Rat.neg Rat.div Rat.ofScientific

/-- Bounding box of one rendered line, `(x0, y0, x1, y1)`, top-left origin. -/
structure Bbox where
  x0 : ℚ
  y0 : ℚ
  x1 : ℚ
  y1 : ℚ
deriving DecidableEq, Repr

/-- One line record as consumed by the extractor: the five keys of the input
dicts that `outline_extractor.py` reads (`text`, `font_name`, `font_size`,
`bbox`, `page`). -/
structure LineRecord where
  text : String
  font_name : String
  font_size : ℚ
  bbox : Bbox
  page : ℤ
deriving DecidableEq, Repr

/-- One line record as produced by `pdf_parser.extract_blocks_with_metadata`
(`src/app/pdf_parser.py` lines 104-112): the five fields above plus the two
precomputed fields `font_name_lower` and `is_bold`. -/
structure ParsedLine where
  text : String
  font_size : ℚ
  font_name : String
  font_name_lower : String
  is_bold : Bool
  bbox : Bbox
  page : ℤ
deriving DecidableEq, Repr

/-- The five extractor-visible fields of a parser record. -/
def ParsedLine.toLineRecord (p : ParsedLine) : LineRecord :=
  { text := p.text, font_name := p.font_name, font_size := p.font_size,
    bbox := p.bbox, page := p.page }

/-- One outline entry (`{"level": ..., "text": ..., "page": ...}`). -/
structure OutlineEntry where
  level : String
  text : String
  page : ℤ
deriving DecidableEq, Repr

/-- Font signature `(font_name, rounded size, is_bold)`. -/
abbrev FontSig := String × ℚ × Bool

/- ## Character and string helpers (ASCII models of the Python primitives) -/

def isSpaceChar (c : Char) : Bool := c.isWhitespace

def isDigitChar (c : Char) : Bool := c.isDigit

/-- The regex word class `\w` over ASCII. -/
def isWordChar (c : Char) : Bool := c.isAlphanum || c = '_'

/-- Model of `str.lower` (ASCII). -/
def lowerStr (s : String) : String := String.mk (s.data.map Char.toLower)

/-- Model of `str.strip()`. -/
def strTrim (s : String) : String :=
  String.mk (((s.data.dropWhile isSpaceChar).reverse.dropWhile isSpaceChar).reverse)

/-- Whether `needle` occurs as a contiguous substring of `hay` (Python `in`). -/
def containsSub (needle : List Char) : List Char → Bool
  | [] => needle.isEmpty
  | c :: t => needle.isPrefixOf (c :: t) || containsSub needle t

/-- Python `needle in hay` on strings. -/
def strContains (hay needle : String) : Bool := containsSub needle.data hay.data

/-- Accumulator pass behind `str.split()`: splits on whitespace runs,
dropping empty pieces. -/
def wordsAux : List Char → List Char → List (List Char)
  | [], cur => if cur.isEmpty then [] else [cur.reverse]
  | c :: rest, cur =>
    if isSpaceChar c then
      if cur.isEmpty then wordsAux rest [] else cur.reverse :: wordsAux rest []
    else wordsAux rest (c :: cur)

/-- Model of `len(s.split())`. -/
def wordCount (s : String) : ℕ := (wordsAux s.data []).length

/-- Model of `s.replace(c, '')` for a one-character pattern. -/
def removeChar (s : String) (c : Char) : String :=
  String.mk (s.data.filter (fun d => d ≠ c))

/-- Model of `s.startswith(p)`. -/
def strStartsWith (s p : String) : Bool := p.data.isPrefixOf s.data

/-- Model of `s.endswith('.')`. -/
def endsWithPeriod (s : String) : Bool := s.data.getLast? = some '.'

/- ## Exact model of `round(x, 1)` (CPython rounds half to even) -/

/-- Round to the nearest integer, halves to the even neighbour. -/
def halfEvenRound (x : ℚ) : ℤ :=
  let f := x.floor
  let r := x - f
  if r < 1/2 then f
  else if 1/2 < r then f + 1
  else if f % 2 = 0 then f else f + 1

/-- Model of `round(x, 1)`. -/
def round1 (x : ℚ) : ℚ := (halfEvenRound (10 * x) : ℚ) / 10

/- ## Models of the `re` patterns used by the source -/

def takeDigits (l : List Char) : List Char := l.takeWhile isDigitChar

/-- Parser for the regex fragment `(\.\d+)*` (greedy; the classes `\.\d` and
`\s` are disjoint, so maximal munch is exact): returns the number of groups
consumed and the rest of the input.  Fuel-driven so that it reduces in the
kernel; the caller passes the input length as fuel. -/
def dotGroups : ℕ → List Char → ℕ × List Char
  | 0, l => (0, l)
  | fuel + 1, l =>
    match l with
    | '.' :: rest =>
      let ds := takeDigits rest
      if ds.isEmpty then (0, l)
      else
        let p := dotGroups fuel (rest.drop ds.length)
        (p.1 + 1, p.2)
    | _ => (0, l)

/-- Model of `re.match(r'^(\d+(\.\d+)*)\s+(.*)', text)` (used at
`outline_extractor.py` lines 227, 270 and 416): on a match, returns the count
of dot-separated numeric parts of group 1 (`len(group(1).split('.'))`)
together with group 3. -/
def matchNumbered (s : String) : Option (ℕ × String) :=
  let cs := s.data
  let ds := takeDigits cs
  if ds.isEmpty then none
  else
    let r1 := cs.drop ds.length
    let p := dotGroups r1.length r1
    let ws := p.2.takeWhile isSpaceChar
    if ws.isEmpty then none
    else some (p.1 + 1, String.mk (p.2.drop ws.length))

/-- Model of `re.match(r'^\s*\d+\s*$', text)`. -/
def isBareNumber (s : String) : Bool :=
  let cs := s.data.dropWhile isSpaceChar
  let ds := takeDigits cs
  !ds.isEmpty && ((cs.drop ds.length).dropWhile isSpaceChar).isEmpty

/-- Model of `re.match(r'^\s*\d+(\.\d+)*\s*$', text)`. -/
def isNumericFragment (s : String) : Bool :=
  let cs := s.data.dropWhile isSpaceChar
  let ds := takeDigits cs
  if ds.isEmpty then false
  else
    let p := dotGroups (cs.drop ds.length).length (cs.drop ds.length)
    (p.2.dropWhile isSpaceChar).isEmpty

/-- Model of `re.match(r'^(Page|Pg\.)\s+\d+\s*(of\s+\d+)?$', text,
re.IGNORECASE)`. -/
def isPagePattern (s : String) : Bool :=
  let cs := (lowerStr s).data
  let afterWord : Option (List Char) :=
    if ['p', 'a', 'g', 'e'].isPrefixOf cs then some (cs.drop 4)
    else if ['p', 'g', '.'].isPrefixOf cs then some (cs.drop 3)
    else none
  match afterWord with
  | none => false
  | some r0 =>
    let ws := r0.takeWhile isSpaceChar
    if ws.isEmpty then false
    else
      let r1 := r0.drop ws.length
      let ds := takeDigits r1
      if ds.isEmpty then false
      else
        let r2 := (r1.drop ds.length).dropWhile isSpaceChar
        r2.isEmpty ||
          (['o', 'f'].isPrefixOf r2 &&
            (let r3 := r2.drop 2
             let ws2 := r3.takeWhile isSpaceChar
             !ws2.isEmpty &&
               (let r4 := r3.drop ws2.length
                let ds2 := takeDigits r4
                !ds2.isEmpty && (r4.drop ds2.length).isEmpty)))

/-- Model of `re.match(r'^(PII|DOI|Reference|Received date|Revised date|Accepted
date):', text, re.IGNORECASE)`, taken on the lower-cased text. -/
def startsMetadataField (low : String) : Bool :=
  strStartsWith low "pii:" || strStartsWith low "doi:" || strStartsWith low "reference:" ||
  strStartsWith low "received date:" || strStartsWith low "revised date:" ||
  strStartsWith low "accepted date:"

/-- Model of `re.match(r'^\s*\d+,\s*(\d{4}|\w+)\s*$', text)` (`\w ⊇ \d`, so the
alternation is the maximal `\w` run). -/
def isNumYearFragment (s : String) : Bool :=
  let cs := s.data.dropWhile isSpaceChar
  let ds := takeDigits cs
  if ds.isEmpty then false
  else
    match cs.drop ds.length with
    | ',' :: r1 =>
      let r2 := r1.dropWhile isSpaceChar
      let w := r2.takeWhile isWordChar
      !w.isEmpty && ((r2.drop w.length).dropWhile isSpaceChar).isEmpty
    | _ => false

def isEmailBodyChar (c : Char) : Bool := c.isAlphanum || c = '.' || c = '-'

/-- The closing `\.[a-zA-Z]{2,}` of the email pattern, tried at one position. -/
def emailStop : List Char → Bool
  | '.' :: a :: b :: _ => a.isAlpha && b.isAlpha
  | _ => false

/-- After an `@`: `[a-zA-Z0-9.-]+\.[a-zA-Z]{2,}`, with the regex backtracking
expressed as a disjunction at every split point. -/
def emailTail : List Char → Bool
  | [] => false
  | c :: rest => isEmailBodyChar c && (emailStop rest || emailTail rest)

/-- Model of `re.search(r'@[a-zA-Z0-9.-]+\.[a-zA-Z]{2,}', text)`. -/
def containsEmailChars : List Char → Bool
  | [] => false
  | '@' :: rest => emailTail rest || containsEmailChars rest
  | _ :: rest => containsEmailChars rest

/-- Whether `t` is a prefix of `l` with a word boundary after it. -/
def wordAtBoundary (t l : List Char) : Bool :=
  t.isPrefixOf l &&
    (match l.drop t.length with
     | [] => true
     | d :: _ => !isWordChar d)

/-- Scan for any of `targets` at a position whose previous character is not a
word character (the left `\b`); `prev` tracks that character. -/
def searchWordsAux (targets : List (List Char)) : Option Char → List Char → Bool
  | _, [] => false
  | prev, c :: rest =>
    ((match prev with
      | none => true
      | some p => !isWordChar p) &&
      targets.any (fun t => wordAtBoundary t (c :: rest))) ||
    searchWordsAux targets (some c) rest

def institutionWords : List (List Char) :=
  ["University".data, "Department".data, "Institute".data,
   "Queensland".data, "Australia".data, "Nigeria".data]

/-- Model of `re.search(r'\b(University|Department|Institute|Queensland|Australia|Nigeria)\b', text)`
(case sensitive in the source). -/
def hasInstitutionKeyword (s : String) : Bool :=
  searchWordsAux institutionWords none s.data

/-- Model of `re.search(r'^[A-Z][a-z]+\s+[A-Z]\.\s+[A-Z][a-z]+$', text)`. -/
def isAuthorNameLine (s : String) : Bool :=
  match s.data with
  | [] => false
  | c :: rest =>
    c.isUpper &&
      (let low1 := rest.takeWhile Char.isLower
       !low1.isEmpty &&
         (let r1 := rest.drop low1.length
          let ws1 := r1.takeWhile isSpaceChar
          !ws1.isEmpty &&
            (match r1.drop ws1.length with
             | d :: '.' :: r2 =>
               d.isUpper &&
                 (let ws2 := r2.takeWhile isSpaceChar
                  !ws2.isEmpty &&
                    (match r2.drop ws2.length with
                     | [] => false
                     | e :: r3 => e.isUpper && !r3.isEmpty && r3.all Char.isLower))
             | _ => false)))

def latexCommandWords : List (List Char) :=
  ["sum".data, "alpha".data, "beta".data, "gamma".data, "cdot".data,
   "mathbb".data, "mathfrak".data, "xi".data, "eta".data, "forall".data,
   "in".data, "infty".data, "ge".data, "le".data, "pm".data, "mu".data,
   "sigma".data, "tanh".data, "log".data, "exp".data, "frac".data,
   "partial".data, "Delta".data, "lambda".data, "emptyset".data,
   "mathbf".data, "mathrm".data, "text".data]

/-- Model of `re.search(r'\\(sum|alpha|...|text)\b', text)`: a backslash, one
of the listed command words, then a word boundary. -/
def hasLatexCommand : List Char → Bool
  | [] => false
  | '\\' :: rest =>
    latexCommandWords.any (fun t => wordAtBoundary t rest) || hasLatexCommand rest
  | _ :: rest => hasLatexCommand rest

def mathStartChars : List Char :=
  ['(', '[', ']', '\x7b', '\x7d', '+', '-', '*', '/', '=', '<', '>', '$', '€', '£', '%']

/-- Model of `re.match(r'^\s*[\(\[\]\{\}\+\-\*\/\=\<\>\$€£%]\s*', text)`. -/
def startsWithMathSymbol (s : String) : Bool :=
  match s.data.dropWhile isSpaceChar with
  | [] => false
  | c :: _ => mathStartChars.contains c

def opChars : List Char := ['-', '+', '*', '/', '=']

/-- Model of `re.match(r'^[\d\.]+\s*[-+*\/=]', text)`. -/
def numThenOperator (s : String) : Bool :=
  let run := s.data.takeWhile (fun c => isDigitChar c || c = '.')
  !run.isEmpty &&
    (match (s.data.drop run.length).dropWhile isSpaceChar with
     | [] => false
     | c :: _ => opChars.contains c)

/-- Model of `re.match(r'^\s*\(\s*\d+\s*\)\s*$', text)`. -/
def isEquationNumber (s : String) : Bool :=
  match s.data.dropWhile isSpaceChar with
  | '(' :: r1 =>
    let r2 := r1.dropWhile isSpaceChar
    let ds := takeDigits r2
    !ds.isEmpty &&
      (match (r2.drop ds.length).dropWhile isSpaceChar with
       | ')' :: r3 => (r3.dropWhile isSpaceChar).isEmpty
       | _ => false)
  | _ => false

/-- Model of `re.match(r'^(Figure|Table)\s*\d+[:.]', text, re.IGNORECASE)`. -/
def isFigureTableCaption (s : String) : Bool :=
  let cs := (lowerStr s).data
  let after : Option (List Char) :=
    if ['f', 'i', 'g', 'u', 'r', 'e'].isPrefixOf cs then some (cs.drop 6)
    else if ['t', 'a', 'b', 'l', 'e'].isPrefixOf cs then some (cs.drop 5)
    else none
  match after with
  | none => false
  | some r0 =>
    let r1 := r0.dropWhile isSpaceChar
    let ds := takeDigits r1
    !ds.isEmpty &&
      (match r1.drop ds.length with
       | [] => false
       | c :: _ => c = ':' || c = '.')

def densityChars : List Char := ['+', '-', '*', '/', '=', '<', '>', '$', '\\']

/-- Model of `len(re.findall(r'[\d\+\-\*\/\=\<\>\$\\]', text)) / (len(text) + 1) > 0.4`. -/
def symbolDensityHigh (s : String) : Bool :=
  let cnt := s.data.countP (fun c => isDigitChar c || densityChars.contains c)
  decide (((cnt : ℚ)) / ((s.data.length : ℚ) + 1) > 0.4)

/-- Model of `re.match(r'^\s*\[\d+\]\s*$', text)`. -/
def isBracketNumberCitation (s : String) : Bool :=
  match s.data.dropWhile isSpaceChar with
  | '[' :: r1 =>
    let ds := takeDigits r1
    !ds.isEmpty &&
      (match r1.drop ds.length with
       | ']' :: r2 => (r2.dropWhile isSpaceChar).isEmpty
       | _ => false)
  | _ => false

/-- Model of `re.match(r'^\s*\[[a-zA-Z\s\.]+\]\s*$', text)`. -/
def isBracketNameCitation (s : String) : Bool :=
  match s.data.dropWhile isSpaceChar with
  | '[' :: r1 =>
    let run := r1.takeWhile (fun c => c.isAlpha || isSpaceChar c || c = '.')
    !run.isEmpty &&
      (match r1.drop run.length with
       | ']' :: r2 => (r2.dropWhile isSpaceChar).isEmpty
       | _ => false)
  | _ => false

/-- Model of `re.search(r'\([A-Za-z\s\.]+,\s*\d{4}\)', text)`: `\d{4}` is
exactly four digits, so the closing parenthesis must be the fifth character
after the whitespace run. -/
def hasAuthorYearCitation : List Char → Bool
  | [] => false
  | '(' :: rest =>
    (let run := rest.takeWhile (fun c => c.isAlpha || isSpaceChar c || c = '.')
     !run.isEmpty &&
       (match rest.drop run.length with
        | ',' :: r1 =>
          (match r1.dropWhile isSpaceChar with
           | a :: b :: c :: d :: ')' :: _ =>
             a.isDigit && b.isDigit && c.isDigit && d.isDigit
           | _ => false)
        | _ => false)) ||
    hasAuthorYearCitation rest
  | _ :: rest => hasAuthorYearCitation rest

/-- The inline bold test repeated at each call site of the extractor
(`outline_extractor.py` line 27 and its copies). -/
def isBoldFont (font_name : String) : Bool :=
  let f := lowerStr font_name
  strContains f "bold" || strContains f "black" || strContains f "demi" ||
  strContains f "heavy" || strContains f "condensed" || strContains f "extrabold"

/-- The parser-side "extended" bold test (`src/app/pdf_parser.py` line 102),
which additionally counts any font whose name does not contain "roman" as
bold.  Only the parser computes this; the extractor recomputes `isBoldFont`
from `font_name` and never reads the precomputed field. -/
def parserIsBold (font_name : String) : Bool :=
  isBoldFont font_name || !(strContains (lowerStr font_name) "roman")

/-- `OutlineExtractor._is_math_expression` (`outline_extractor.py` lines 177-203). -/
def _is_math_expression (s : String) : Bool :=
  let text := strTrim s
  if text.data.isEmpty then false
  else if hasLatexCommand text.data then true
  else if startsWithMathSymbol text || numThenOperator text || isEquationNumber text ||
      isNumericFragment text then true
  else if isFigureTableCaption text then true
  else if symbolDensityHigh text then true
  else false

/- ## Stable sorting (model of CPython's stable `list.sort` / `sorted`) -/

/-- Insert `a` into `l`, passing over exactly the elements that must precede
it; with `precede b a` = "`b` is strictly before `a`", this realizes a stable
sort when driven by `stableSort`. -/
def insertStable (precede : α → α → Bool) (a : α) : List α → List α
  | [] => [a]
  | b :: t => if precede b a then b :: insertStable precede a t else a :: b :: t

/-- Stable insertion sort: elements whose keys tie keep their input order,
exactly as CPython's `list.sort`. -/
def stableSort (precede : α → α → Bool) : List α → List α
  | [] => []
  | a :: t => insertStable precede a (stableSort precede t)

/-- Strict comparison on the sort key `(page, bbox[1])` of
`text_lines_data.sort(key=lambda b: (b['page'], b['bbox'][1]))`
(`outline_extractor.py` line 336). -/
def lineKeyLt (b a : LineRecord) : Bool :=
  decide (b.page < a.page) || (decide (b.page = a.page) && decide (b.bbox.y0 < a.bbox.y0))

/-- The in-place sort of the input by `(page, y0)`. -/
def sortLines (l : List LineRecord) : List LineRecord := stableSort lineKeyLt l

/-- The same sort key read off a parser record. -/
def parsedKeyLt (b a : ParsedLine) : Bool :=
  decide (b.page < a.page) || (decide (b.page = a.page) && decide (b.bbox.y0 < a.bbox.y0))

/-- The in-place sort of a list of parser records by `(page, y0)`. -/
def sortParsedLines (l : List ParsedLine) : List ParsedLine := stableSort parsedKeyLt l

/- ## FontProfileBuilder: `_analyze_font_properties` -/

/-- The signature `(font_name, round(font_size, 1), is_bold)` computed for a
line (`outline_extractor.py` lines 24-29). -/
def sigOf (ld : LineRecord) : FontSig :=
  (ld.font_name, round1 ld.font_size, isBoldFont ld.font_name)

/-- Insert one `y0` into the association list keyed by signature, preserving
first-occurrence order (Python dict `setdefault` + `append`). -/
def addToGroup : List (FontSig × List ℚ) → FontSig → ℚ → List (FontSig × List ℚ)
  | [], s, y => [(s, [y])]
  | (s', ys) :: rest, s, y =>
    if s' = s then (s', ys ++ [y]) :: rest else (s', ys) :: addToGroup rest s y

/-- `font_signatures_raw`: signature -> y-coordinates of its lines, in
first-occurrence order (`outline_extractor.py` lines 18-30). -/
def fontSignaturesRaw (l : List LineRecord) : List (FontSig × List ℚ) :=
  l.foldl (fun acc ld => addToGroup acc (sigOf ld) ld.bbox.y0) []

def maxQ : List ℚ → ℚ
  | [] => 0
  | x :: r => r.foldl max x

def minQ : List ℚ → ℚ
  | [] => 0
  | x :: r => r.foldl min x

/-- Distinct values of a list in first-occurrence order (model of iterating a
Python `set` built from a generator, used only through its length). -/
def distinctVals [DecidableEq α] (l : List α) : List α :=
  l.foldl (fun acc x => if x ∈ acc then acc else acc ++ [x]) []

/-- `len(set(ld['page'] for ld in lines))`. -/
def distinctPageCount (l : List LineRecord) : ℕ := (distinctVals (l.map (·.page))).length

/-- `Counter(l).most_common(1)[0][0]`: the first-inserted key of maximal
count (CPython's `most_common` is a stable descending sort by count). -/
def mostCommon (l : List ℚ) : Option ℚ :=
  (distinctVals l).foldl
    (fun best k =>
      match best with
      | none => some k
      | some b => if l.count k > l.count b then some k else best)
    none

/-- `general_font_info` (`outline_extractor.py` lines 38-49). -/
structure GeneralFontInfo where
  max_overall_font_size : ℚ
  min_x0 : ℚ
  body_font_size : ℚ
deriving DecidableEq, Repr

/-- The document-wide statistics of `_analyze_font_properties`
(`outline_extractor.py` lines 38-49); only called on a non-empty list. -/
def generalInfoOf (l : List LineRecord) : GeneralFontInfo :=
  let sizes := l.map (fun ld => round1 ld.font_size)
  let maxSz := maxQ sizes
  { max_overall_font_size := maxSz
    min_x0 := minQ (l.map (fun ld => ld.bbox.x0))
    body_font_size :=
      (mostCommon (sizes.filter (fun s => 6 < s ∧ s < maxSz * 0.95))).getD 10 }

/-- One surviving entry of `potential_heading_styles`
(`outline_extractor.py` line 100). -/
structure StyleInfo where
  signature : FontSig
  score : ℚ
  avg_y : ℚ
  avg_x0 : ℚ
  count : ℕ
deriving DecidableEq, Repr

/-- All lines of the document carrying `sig` (`outline_extractor.py` line 64,
which recomputes each line's signature and filters). -/
def linesForSig (l : List LineRecord) (sig : FontSig) : List LineRecord :=
  l.filter (fun ld => sigOf ld = sig)

/-- The inferred page dimensions (`outline_extractor.py` lines 83-91): the far
corner of the first record's bbox when it is on page 1 with positive extent,
else the A4 proxy 842 x 595. -/
def pageDims (l : List LineRecord) : ℚ × ℚ :=
  match l with
  | [] => (842, 595)
  | fl :: _ =>
    if fl.page = 1 ∧ fl.bbox.y1 > 0 ∧ fl.bbox.x1 > 0
    then (fl.bbox.y1, fl.bbox.x1) else (842, 595)

/-- The per-group filter and scoring of `_analyze_font_properties`
(`outline_extractor.py` lines 56-100): `none` models `continue`. -/
def styleInfoOf (l : List LineRecord) (info : GeneralFontInfo) (nPages : ℕ)
    (g : FontSig × List ℚ) : Option StyleInfo :=
  let sig := g.1
  let size := sig.2.1
  let isBld := sig.2.2
  if size < info.body_font_size * 0.95 ∨ size < 8 then none
  else
    let lines := linesForSig l sig
    let pagesWith := distinctPageCount lines
    if (pagesWith : ℚ) > (nPages : ℚ) * 0.7 ∧
        (lines.any (fun ld => strContains (lowerStr ld.text) "journal pre-proof") = true ∨
          ¬(isBld = true ∧ size ≥ info.max_overall_font_size * 0.9)) then none
    else
      let avg_y := if lines.isEmpty then 0 else (lines.map (fun ld => ld.bbox.y0)).sum / (lines.length : ℚ)
      let avg_x0 := if lines.isEmpty then 0 else (lines.map (fun ld => ld.bbox.x0)).sum / (lines.length : ℚ)
      let dims := pageDims l
      some { signature := sig
             score := size * 15 + (if isBld = true then (200 : ℚ) else 0)
               - (avg_y / dims.1) * 100 - (avg_x0 / dims.2) * 20 + (g.2.length : ℚ) * 0.05
             avg_y := avg_y
             avg_x0 := avg_x0
             count := g.2.length }

/-- `potential_heading_styles`, in dict iteration order. -/
def potentialHeadingStyles (l : List LineRecord) (info : GeneralFontInfo) : List StyleInfo :=
  (fontSignaturesRaw l).filterMap (styleInfoOf l info (distinctPageCount l))

/-- Comparator of `potential_heading_styles.sort(key=lambda x: x['score'],
reverse=True)`: stable descending by score. -/
def stylePrecede (b a : StyleInfo) : Bool := decide (a.score < b.score)

/-- The score-sorted candidate styles. -/
def sortedHeadingStyles (l : List LineRecord) (info : GeneralFontInfo) : List StyleInfo :=
  stableSort stylePrecede (potentialHeadingStyles l info)

/-- `font_styles_map` during the assignment loop (`outline_extractor.py`
lines 106-143): sizes start at 0 and `x0` values at `float('inf')`, the
sentinel being modelled as `none`. -/
structure StylesAcc where
  H1 : Option FontSig := none
  H2 : Option FontSig := none
  H3 : Option FontSig := none
  H1_size : ℚ := 0
  H2_size : ℚ := 0
  H3_size : ℚ := 0
  H1_x0 : Option ℚ := none
  H2_x0 : Option ℚ := none
  H3_x0 : Option ℚ := none
deriving DecidableEq, Repr

/-- One iteration of the H1/H2/H3 assignment loop (`outline_extractor.py`
lines 115-143); the first component counts `assigned_levels_count`.  The
source's `break` at count 3 is modelled by the identity continuation (every
later iteration changes nothing), and the `assigned_sizes` set is omitted:
the source fills it but never reads it. -/
def assignStep (st : ℕ × StylesAcc) (si : StyleInfo) : ℕ × StylesAcc :=
  let sig := si.signature
  let size := sig.2.1
  match st.1 with
  | 0 =>
    (1, { st.2 with H1 := some sig, H1_size := size, H1_x0 := some si.avg_x0 })
  | 1 =>
    match st.2.H1 with
    | some h1 =>
      if size < st.2.H1_size * 0.95 ∨ sig.1 ≠ h1.1 ∨ sig.2.2 ≠ h1.2.2 then
        (2, { st.2 with H2 := some sig, H2_size := size, H2_x0 := some si.avg_x0 })
      else st
    | none => st
  | 2 =>
    match st.2.H2 with
    | some h2 =>
      if size < st.2.H2_size * 0.95 ∨ sig.1 ≠ h2.1 ∨ sig.2.2 ≠ h2.2.2 then
        (3, { st.2 with H3 := some sig, H3_size := size, H3_x0 := some si.avg_x0 })
      else st
    | none => st
  | _ => st

/-- The assignment loop over the score-sorted styles. -/
def assignedStyles (l : List LineRecord) (info : GeneralFontInfo) : StylesAcc :=
  ((sortedHeadingStyles l info).foldl assignStep (0, {})).2

/-- `font_styles_map` after the loop and the fallbacks
(`outline_extractor.py` lines 146-154). -/
structure FontStylesMap where
  H1 : Option FontSig
  H2 : Option FontSig
  H3 : Option FontSig
  H1_size : ℚ
  H2_size : ℚ
  H3_size : ℚ
  H1_x0_min : ℚ
  H2_x0_min : ℚ
  H3_x0_min : ℚ
deriving DecidableEq, Repr

/-- The size and indentation fallbacks (`outline_extractor.py` lines 146-154);
each fallback reads the field set just before it, exactly as the sequential
assignments in the source. -/
def applyFallbacks (info : GeneralFontInfo) (m : StylesAcc) : FontStylesMap :=
  let h1s := if m.H1_size = 0 then
      (if info.max_overall_font_size > 0 then info.max_overall_font_size * 0.9 else 18)
    else m.H1_size
  let h2s := if m.H2_size = 0 then h1s * 0.85 else m.H2_size
  let h3s := if m.H3_size = 0 then h2s * 0.85 else m.H3_size
  let x01 := m.H1_x0.getD info.min_x0
  let x02 := m.H2_x0.getD (x01 + 10)
  let x03 := m.H3_x0.getD (x02 + 10)
  { H1 := m.H1, H2 := m.H2, H3 := m.H3,
    H1_size := h1s, H2_size := h2s, H3_size := h3s,
    H1_x0_min := x01, H2_x0_min := x02, H3_x0_min := x03 }

/-- The `font_styles_map` computed by `_analyze_font_properties` for a
document (undefined use is unreachable for an empty document: the caller
returns before the analysis). -/
def fontStylesMapOf (l : List LineRecord) (info : GeneralFontInfo) : FontStylesMap :=
  applyFallbacks info (assignedStyles l info)

/-- `OutlineExtractor._analyze_font_properties` (`outline_extractor.py` lines
12-154): `none` models the early return on an empty document, on which the
maps stay unset. -/
def _analyze_font_properties (l : List LineRecord) : Option (GeneralFontInfo × FontStylesMap) :=
  if l.isEmpty then none
  else
    let info := generalInfoOf l
    some (info, fontStylesMapOf l info)

/- ## TitleDetector: `_is_title` and the fallback of `extract_outline` -/

/-- `OutlineExtractor._is_title` (`outline_extractor.py` lines 157-175). -/
def _is_title (info : GeneralFontInfo) (ld : LineRecord) : Bool :=
  let text := strTrim ld.text
  let font_size := round1 ld.font_size
  let isBld := isBoldFont ld.font_name
  if ld.page ≠ 1 ∨ text.data.isEmpty then false
  else if strContains (lowerStr text)
      "deep support vector machine for hyperspectral image classification" then
    decide (isBld = true ∧ font_size ≥ info.max_overall_font_size * 0.95 ∧ ld.bbox.y0 < 150)
  else false

/-- The filter on fallback title candidates (`outline_extractor.py` lines
352-366): page-1 lines high on the page, bold, near-maximal size, with 16-29
words and none of the listed suppression patterns. -/
def titleCandPred (info : GeneralFontInfo) (ld : LineRecord) : Bool :=
  let lowT := lowerStr (strTrim ld.text)
  decide (ld.page = 1) && decide (ld.bbox.y0 < 200) &&
  isBoldFont ld.font_name &&
  decide (ld.font_size ≥ info.max_overall_font_size * 0.9) &&
  !strContains lowT "journal pre-proof" &&
  !strContains lowT "highlights" &&
  !_is_math_expression (strTrim ld.text) &&
  !startsMetadataField lowT &&
  !containsEmailChars lowT.data &&
  !hasAuthorYearCitation lowT.data &&
  decide (15 < wordCount ld.text) && decide (wordCount ld.text < 30)

/-- `potential_title_lines` before the size sort. -/
def potential_title_lines (info : GeneralFontInfo) (lines : List LineRecord) : List LineRecord :=
  lines.filter (titleCandPred info)

/-- Comparator of `potential_title_lines.sort(key=lambda x: x['font_size'],
reverse=True)`: stable descending by raw font size. -/
def titleSizePrecede (b a : LineRecord) : Bool := decide (a.font_size < b.font_size)

/-- The greedy concatenation of vertically adjacent, same-size, aligned
candidate lines (`outline_extractor.py` lines 376-383); `prev` is the
previously accepted candidate. -/
def concatTitle (base_x0 base_size : ℚ) : LineRecord → List LineRecord → String
  | _, [] => ""
  | prev, c :: rest =>
    if c.bbox.y0 - prev.bbox.y1 < 5 ∧ c.font_size = base_size ∧ |c.bbox.x0 - base_x0| < 10
    then " " ++ strTrim c.text ++ concatTitle base_x0 base_size c rest
    else ""

/-- The fallback title (`outline_extractor.py` lines 349-386). -/
def fallbackTitle (info : GeneralFontInfo) (sorted : List LineRecord) : String :=
  let cands := stableSort titleSizePrecede (potential_title_lines info sorted)
  match cands with
  | [] => "Academic Paper (Generic Title)"
  | c :: rest => strTrim c.text ++ concatTitle c.bbox.x0 c.font_size c rest

/-- Title selection of `extract_outline` (`outline_extractor.py` lines
342-386): the first sorted line satisfying `_is_title`, else the fallback. -/
def findTitle (info : GeneralFontInfo) (sorted : List LineRecord) : String :=
  match sorted.find? (fun ld => _is_title info ld) with
  | some ld => strTrim ld.text
  | none => fallbackTitle info sorted

/- ## HeadingClassifier: `_is_heading` -/

def commonH1Names : List String :=
  ["abstract", "introduction", "results", "discussion and conclusion",
   "acknowledgement", "references", "appendix"]

def commonH2Names : List String :=
  ["materials and method", "related work", "experimental setup",
   "data and implementation", "conclusion"]

def commonH3Names : List String :=
  ["keywords", "conflict of interest", "declaration of interests"]

/-- `OutlineExtractor._is_heading` (`outline_extractor.py` lines 205-325): the
ordered cascade of rejections, the numbered-section stage (which never falls
through once its regex matches), the named-heading stage and the style
fallback stage. -/
def _is_heading (info : GeneralFontInfo) (styles : FontStylesMap) (ld : LineRecord) :
    Option String :=
  let text := strTrim ld.text
  let font_size := round1 ld.font_size
  let x0_pos := ld.bbox.x0
  let isBld := isBoldFont ld.font_name
  let current_sig : FontSig := (ld.font_name, font_size, isBld)
  let low := lowerStr text
  if text.data.isEmpty then none
  else if text.data.length < 3 then none
  else if wordCount text > 20 ∧ (matchNumbered text).isNone then none
  else if isBareNumber text ∧ ld.page > 1 then none
  else if isPagePattern text then none
  else if strContains low "journal pre-proof" ∨ strContains low "highlights" ∨
      strContains low "journal pre-print" ∨ strContains low "manuscript" ∨
      strContains low "accepted manuscript" then none
  else if startsMetadataField low ∨ isNumYearFragment text ∨
      containsEmailChars text.data ∨ hasInstitutionKeyword text ∨
      isAuthorNameLine text then none
  else if _is_math_expression text then none
  else if isBracketNumberCitation text ∨ isBracketNameCitation text then none
  else if hasAuthorYearCitation text.data ∧ wordCount text < 20 then none
  else if endsWithPeriod text ∧ wordCount text > 5 ∧
      ¬(strStartsWith low "abstract" ∨ strStartsWith low "introduction" ∨
        strStartsWith low "results" ∨ strStartsWith low "discussion and conclusion") then none
  else
    match matchNumbered text with
    | some (parts, _) =>
      if font_size ≥ info.body_font_size * 0.9 ∧
          (isBld = true ∨ styles.H1 = some current_sig ∨ styles.H2 = some current_sig ∨
            styles.H3 = some current_sig) then
        if parts = 1 then
          if |x0_pos - styles.H1_x0_min| < 25 then some "H1" else none
        else if parts = 2 then
          if |x0_pos - styles.H2_x0_min| < 25 then some "H2" else none
        else
          if |x0_pos - styles.H3_x0_min| < 25 then some "H3" else none
      else none
    | none =>
      let cleaned := strTrim (removeChar (removeChar low '.') ':')
      if cleaned ∈ commonH1Names ∧ isBld = true ∧ font_size ≥ styles.H1_size * 0.9 ∧
          |x0_pos - styles.H1_x0_min| < 25 then some "H1"
      else if cleaned ∈ commonH2Names ∧ isBld = true ∧ font_size ≥ styles.H2_size * 0.9 ∧
          |x0_pos - styles.H2_x0_min| < 25 then some "H2"
      else if cleaned ∈ commonH3Names ∧ isBld = true ∧ font_size ≥ styles.H3_size * 0.9 ∧
          |x0_pos - styles.H3_x0_min| < 25 then some "H3"
      else if (styles.H1 = some current_sig ∨ (font_size ≥ styles.H1_size * 0.9 ∧ isBld = true)) ∧
          wordCount text < 10 ∧ ¬(endsWithPeriod text = true) ∧
          |x0_pos - styles.H1_x0_min| < 25 then some "H1"
      else if (styles.H2 = some current_sig ∨ (font_size ≥ styles.H2_size * 0.9 ∧ isBld = true)) ∧
          wordCount text < 15 ∧ ¬(endsWithPeriod text = true) ∧
          |x0_pos - styles.H2_x0_min| < 25 then some "H2"
      else if (styles.H3 = some current_sig ∨ (font_size ≥ styles.H3_size * 0.9 ∧ isBld = true)) ∧
          wordCount text < 20 ∧ ¬(endsWithPeriod text = true) ∧
          |x0_pos - styles.H3_x0_min| < 25 then some "H3"
      else none

/- ## OutlineAssembler: the classification loop and `extract_outline` -/

/-- The heading-text cleanup for non-numbered headings (`outline_extractor.py`
lines 421-432). -/
def canonicalHeadingText (cleaned : String) : String :=
  let low := lowerStr cleaned
  if strStartsWith low "abstract" ∧ wordCount cleaned > 1 then "Abstract"
  else if strStartsWith low "keywords:" ∧ wordCount cleaned > 1 then "Keywords"
  else if strStartsWith low "acknowledgement" ∧ wordCount cleaned > 1 then "Acknowledgement"
  else if strStartsWith low "conflict of interest" ∧ wordCount cleaned > 1 then "Conflict of interest"
  else if strStartsWith low "declaration of interests" ∧ wordCount cleaned > 1 then "Declaration of interests"
  else if strStartsWith low "references" ∧ wordCount cleaned > 1 then "References"
  else cleaned

/-- One iteration of the outline loop of `extract_outline`
(`outline_extractor.py` lines 392-447).  The state is
(`added_headings`, `outline`); the watermark/title/page-number skips, the
classifier call, the cleanup, the length filter and the dedup check happen in
source order. -/
def outlineStep (info : GeneralFontInfo) (styles : FontStylesMap) (title : String)
    (st : List (String × String × ℤ) × List OutlineEntry) (ld : LineRecord) :
    List (String × String × ℤ) × List OutlineEntry :=
  let ctext := strTrim ld.text
  let low := lowerStr ctext
  if strContains low "journal pre-proof" ∨ strContains low "highlights" ∨
      strContains low "journal pre-print" ∨ strContains low "manuscript" ∨
      strContains low "accepted manuscript" ∨
      (title ≠ "Untitled Document" ∧ low = lowerStr title) then st
  else if isBareNumber ctext then st
  else
    match _is_heading info styles ld with
    | none => st
    | some lvl =>
      let cleaned :=
        match matchNumbered ctext with
        | some (_, g3) => strTrim g3
        | none => canonicalHeadingText ctext
      if cleaned.data.isEmpty ∨ cleaned.data.length < 3 then st
      else if (cleaned, lvl, ld.page) ∈ st.1 then st
      else ((cleaned, lvl, ld.page) :: st.1, st.2 ++ [⟨lvl, cleaned, ld.page⟩])

/-- The post-sort body of `extract_outline` on the sorted line list. -/
def assembleOutline (sorted : List LineRecord) : String × List OutlineEntry :=
  match _analyze_font_properties sorted with
  | none => ("Untitled Document", [])
  | some (info, styles) =>
    let title := findTitle info sorted
    (title, (sorted.foldl (outlineStep info styles title) ([], [])).2)

/-- `OutlineExtractor.extract_outline` (`outline_extractor.py` lines 328-449):
the value `(self.title, self.outline)` returned to the caller. -/
def extract_outline (l : List LineRecord) : String × List OutlineEntry :=
  if l.isEmpty then ("Untitled Document", [])
  else assembleOutline (sortLines l)

/-- The caller's input list after `extract_outline` returns: the source sorts
`text_lines_data` in place (`outline_extractor.py` line 336) unless it
returned early on an empty input (line 332). -/
def extract_outline_post (l : List LineRecord) : List LineRecord :=
  if l.isEmpty then l else sortLines l

/-- `extract_outline` applied to the records built by
`pdf_parser.extract_blocks_with_metadata`: the in-place sort orders the full
records by `(page, y0)`, and every later access of the extractor reads only
the five `LineRecord` fields, so the body acts on their projection. -/
def extract_outline_parsed (l : List ParsedLine) : String × List OutlineEntry :=
  if l.isEmpty then ("Untitled Document", [])
  else assembleOutline ((sortParsedLines l).map ParsedLine.toLineRecord)

/- ## Concrete documents used by the counterexamples and witnesses -/

/-- Two page-1 lines with identical sort key `(1, 50)` and identical style;
only their texts differ (16 one-letter words each, a fallback-title word
count). -/
def c1lineA : LineRecord :=
  ⟨"a a a a a a a a a a a a a a a a", "F-Bold", 20, ⟨50, 50, 400, 60⟩, 1⟩

def c1lineB : LineRecord :=
  ⟨"b b b b b b b b b b b b b b b b", "F-Bold", 20, ⟨50, 50, 400, 60⟩, 1⟩

/-- A page-1 line whose text contains both the watermark marker and the
corpus-specific title substring, bold and large and high on the page. -/
def c4line : LineRecord :=
  ⟨"Journal Pre-proof Deep Support Vector Machine For Hyperspectral Image Classification",
   "T-Bold", 20, ⟨50, 40, 400, 60⟩, 1⟩

/-- A two-page document with three styles: a small bold page-1 heading style,
a larger non-bold page-2 style with a smaller left margin, and a middle-sized
third style. -/
def c5doc : List LineRecord :=
  [⟨"Heading One", "F-Bold", 10, ⟨50, 100, 300, 110⟩, 1⟩,
   ⟨"Second Style", "F", 12, ⟨40, 50, 300, 60⟩, 2⟩,
   ⟨"Third Style", "G", 11, ⟨45, 200, 300, 210⟩, 2⟩]

/-- Scenario A of the spec, instantiated: the bold size-20 title line at
`y0 = 40` and the bold size-14 line "1. Introduction" at the document's
minimum `x0 = 50`, `y0 = 120`, both on page 1. -/
def c6doc : List LineRecord :=
  [⟨"Deep Support Vector Machine For Hyperspectral Image Classification",
    "Arial-Bold", 20, ⟨50, 40, 500, 60⟩, 1⟩,
   ⟨"1. Introduction", "Arial-Bold", 14, ⟨50, 120, 200, 134⟩, 1⟩]

/-- A watermark line present on one page of a two-page document (on 50% of
the pages, below the 70% ubiquity cutoff). -/
def c7lineW : LineRecord := ⟨"Journal Pre-proof", "W-Bold", 20, ⟨50, 40, 300, 60⟩, 1⟩

def c7doc : List LineRecord :=
  [c7lineW, ⟨"Body text here", "R", 10, ⟨50, 100, 300, 110⟩, 2⟩]

/-- The signature of the watermark line of `c7doc`. -/
def c7sig : FontSig := ("W-Bold", 20, true)

/-- A bold, large, high page-1 line of 17 words whose text contains
"manuscript" but none of the filters of the fallback-title candidate
collection. -/
def c8line : LineRecord :=
  ⟨"Accepted Manuscript w w w w w w w w w w w w w w w", "A-Bold", 20, ⟨50, 100, 400, 115⟩, 1⟩

/-- Two page-1 lines given in reverse reading order. -/
def c9lineX : LineRecord := ⟨"Line one", "F", 10, ⟨50, 100, 300, 110⟩, 1⟩

def c9lineY : LineRecord := ⟨"Line two", "F", 10, ⟨50, 50, 300, 60⟩, 1⟩

/-- Two page-1 lines with distinct sort keys. -/
def w1lineA : LineRecord := ⟨"Alpha heading", "F-Bold", 20, ⟨50, 40, 300, 60⟩, 1⟩

def w1lineB : LineRecord := ⟨"Beta body", "F", 10, ⟨50, 100, 300, 110⟩, 1⟩

/-- A one-line document: only the H1 signature can be assigned from it. -/
def w5line : LineRecord := ⟨"Heading", "F-Bold", 20, ⟨50, 40, 300, 60⟩, 1⟩

/-- A parser record, with the parser's precomputed auxiliary fields. -/
def w10lineA : ParsedLine :=
  ⟨"Sample heading", 12, "Helv-Bold", lowerStr "Helv-Bold", parserIsBold "Helv-Bold",
   ⟨50, 40, 300, 52⟩, 1⟩

/-- The same five extractor-visible fields as `w10lineA`, but with the two
auxiliary fields set differently (as the variant bold definition of the
parser would under a different convention). -/
def w10lineB : ParsedLine :=
  ⟨"Sample heading", 12, "Helv-Bold", "different", false, ⟨50, 40, 300, 52⟩, 1⟩

/-- The dedup key `(cleaned_text, heading_level, current_page)` of an emitted
entry (`outline_extractor.py` line 438). -/
def entryKey (e : OutlineEntry) : String × String × ℤ := (e.text, e.level, e.page)

/-- Invariant of the H1/H2/H3 assignment loop: the accumulated `H1_size` is 0
or a surviving (hence at least 8) size, the unset levels keep their initial
size 0 and unset indentation, H3 is never assigned before H2, and an unset H2
means at most one level was assigned. -/
def assignInv (st : ℕ × StylesAcc) : Prop :=
  (st.2.H1_size = 0 ∨ 8 ≤ st.2.H1_size) ∧
  (st.2.H2 = none → st.2.H2_size = 0 ∧ st.2.H2_x0 = none) ∧
  (st.2.H3 = none → st.2.H3_size = 0 ∧ st.2.H3_x0 = none) ∧
  (st.2.H2 = none → st.2.H3 = none) ∧
  (st.2.H2 = none → st.1 ≤ 1)

/- ## Helper lemmas: the stable sort -/

theorem insertStable_perm (p : α → α → Bool) (a : α) (l : List α) :
    (insertStable p a l).Perm (a :: l) := by
  induction l with
  | nil => exact List.Perm.refl [a]
  | cons b t ih =>
    by_cases h : p b a = true
    · simp only [insertStable, if_pos h]
      exact (ih.cons b).trans (List.Perm.swap a b t)
    · simp only [insertStable, if_neg h]
      exact List.Perm.refl _

theorem stableSort_perm (p : α → α → Bool) (l : List α) : (stableSort p l).Perm l := by
  induction l with
  | nil => exact List.Perm.refl []
  | cons a t ih => exact (insertStable_perm p a (stableSort p t)).trans (ih.cons a)

theorem lineKeyLt_iff (b a : LineRecord) :
    lineKeyLt b a = true ↔ b.page < a.page ∨ (b.page = a.page ∧ b.bbox.y0 < a.bbox.y0) := by
  simp [lineKeyLt]

theorem lineKeyLt_false_iff (b a : LineRecord) :
    lineKeyLt b a = false ↔ a.page < b.page ∨ (a.page = b.page ∧ a.bbox.y0 ≤ b.bbox.y0) := by
  rw [Bool.eq_false_iff, Ne, lineKeyLt_iff]
  constructor
  · intro h
    rcases lt_trichotomy a.page b.page with hp | hp | hp
    · exact Or.inl hp
    · refine Or.inr ⟨hp, ?_⟩
      by_contra hy
      exact h (Or.inr ⟨hp.symm, lt_of_not_le hy⟩)
    · exact absurd (Or.inl hp) h
  · rintro (hp | ⟨hp, hy⟩) <;> rintro (h | ⟨he, h2⟩)
    · omega
    · omega
    · omega
    · linarith

theorem lineKeyLt_asymm {x y : LineRecord} (h : lineKeyLt x y = true) :
    lineKeyLt y x = false := by
  rw [lineKeyLt_false_iff]
  rcases (lineKeyLt_iff x y).mp h with hp | ⟨hp, hy⟩
  · exact Or.inl hp
  · exact Or.inr ⟨hp, le_of_lt hy⟩

theorem lineKeyLt_negtrans {a b c : LineRecord} (h1 : lineKeyLt b a = false)
    (h2 : lineKeyLt c b = false) : lineKeyLt c a = false := by
  rw [lineKeyLt_false_iff] at h1 h2 ⊢
  rcases h1 with hp1 | ⟨hp1, hy1⟩ <;> rcases h2 with hp2 | ⟨hp2, hy2⟩
  · exact Or.inl (hp1.trans hp2)
  · exact Or.inl (by omega)
  · exact Or.inl (by omega)
  · exact Or.inr ⟨hp1.trans hp2, le_trans hy1 hy2⟩

theorem mem_insertStable {p : α → α → Bool} {a x : α} {l : List α}
    (h : x ∈ insertStable p a l) : x = a ∨ x ∈ l := by
  have := (insertStable_perm p a l).mem_iff.mp h
  simpa using this

theorem insertStable_pairwise_le (a : LineRecord) (l : List LineRecord)
    (hl : l.Pairwise fun x y => lineKeyLt y x = false) :
    (insertStable lineKeyLt a l).Pairwise fun x y => lineKeyLt y x = false := by
  induction l with
  | nil => simp [insertStable]
  | cons b t ih =>
    rcases List.pairwise_cons.mp hl with ⟨hb, ht⟩
    by_cases h : lineKeyLt b a = true
    · simp only [insertStable, if_pos h]
      refine List.pairwise_cons.mpr ⟨?_, ih ht⟩
      intro x hx
      rcases mem_insertStable hx with rfl | hx'
      · exact lineKeyLt_asymm h
      · exact hb x hx'
    · simp only [insertStable, if_neg h]
      refine List.pairwise_cons.mpr ⟨?_, hl⟩
      intro x hx
      have hba : lineKeyLt b a = false := Bool.eq_false_iff.mpr h
      rcases List.mem_cons.mp hx with rfl | hx'
      · exact hba
      · exact lineKeyLt_negtrans hba (hb x hx')

theorem sortLines_pairwise_le (l : List LineRecord) :
    (sortLines l).Pairwise fun x y => lineKeyLt y x = false := by
  induction l with
  | nil => simp [sortLines, stableSort]
  | cons a t ih => exact insertStable_pairwise_le a (stableSort lineKeyLt t) ih

theorem pairwise_strict_of_le_nodup (l : List LineRecord)
    (hs : l.Pairwise fun x y => lineKeyLt y x = false)
    (hnd : (l.map fun ld => (ld.page, ld.bbox.y0)).Nodup) :
    l.Pairwise fun x y => lineKeyLt x y = true := by
  have hnd' : l.Pairwise fun x y => ¬((x.page, x.bbox.y0) = (y.page, y.bbox.y0)) :=
    List.pairwise_map.mp hnd
  refine (hs.and hnd').imp ?_
  rintro a b ⟨h1, h2⟩
  rw [lineKeyLt_iff]
  rcases (lineKeyLt_false_iff b a).mp h1 with hp | ⟨hp, hy⟩
  · exact Or.inl hp
  · refine Or.inr ⟨hp, lt_of_le_of_ne hy ?_⟩
    intro hcontra
    exact h2 (by rw [Prod.mk.injEq]; exact ⟨hp, hcontra⟩)

theorem eq_of_perm_of_strict : ∀ (l₁ l₂ : List LineRecord), l₁.Perm l₂ →
    l₁.Pairwise (fun x y => lineKeyLt x y = true) →
    l₂.Pairwise (fun x y => lineKeyLt x y = true) → l₁ = l₂ := by
  intro l₁
  induction l₁ with
  | nil => intro l₂ hp _ _; exact (hp.nil_eq).symm ▸ rfl
  | cons a t ih =>
    intro l₂ hp h1 h2
    cases l₂ with
    | nil => exact absurd hp.eq_nil (by simp)
    | cons b t₂ =>
      rcases List.pairwise_cons.mp h1 with ⟨ha, ht⟩
      rcases List.pairwise_cons.mp h2 with ⟨hb, ht₂⟩
      by_cases hab : a = b
      · subst hab
        rw [ih t₂ hp.cons_inv ht ht₂]
      · exfalso
        have hmem : a ∈ b :: t₂ := hp.mem_iff.mp (List.mem_cons_self a t)
        have ha2 : a ∈ t₂ := by
          rcases List.mem_cons.mp hmem with h | h
          · exact absurd h hab
          · exact h
        have hmem' : b ∈ a :: t := hp.symm.mem_iff.mp (List.mem_cons_self b t₂)
        have hb2 : b ∈ t := by
          rcases List.mem_cons.mp hmem' with h | h
          · exact absurd h.symm hab
          · exact h
        have h₁ : lineKeyLt a b = true := ha b hb2
        have h₂ : lineKeyLt b a = true := hb a ha2
        rw [lineKeyLt_asymm h₁] at h₂
        exact absurd h₂ (by simp)

/- ## C1: order independence -/

theorem sortLines_eq_of_perm (l₁ l₂ : List LineRecord) (hp : l₁.Perm l₂)
    (hnd : (l₁.map fun ld => (ld.page, ld.bbox.y0)).Nodup) :
    sortLines l₁ = sortLines l₂ := by
  have hnd₂ : (l₂.map fun ld => (ld.page, ld.bbox.y0)).Nodup :=
    ((hp.map _).nodup_iff).mp hnd
  have hnds₁ : ((sortLines l₁).map fun ld => (ld.page, ld.bbox.y0)).Nodup :=
    (((stableSort_perm lineKeyLt l₁).map _).nodup_iff).mpr hnd
  have hnds₂ : ((sortLines l₂).map fun ld => (ld.page, ld.bbox.y0)).Nodup :=
    (((stableSort_perm lineKeyLt l₂).map _).nodup_iff).mpr hnd₂
  apply eq_of_perm_of_strict
  · exact (stableSort_perm lineKeyLt l₁).trans (hp.trans (stableSort_perm lineKeyLt l₂).symm)
  · exact pairwise_strict_of_le_nodup _ (sortLines_pairwise_le l₁) hnds₁
  · exact pairwise_strict_of_le_nodup _ (sortLines_pairwise_le l₂) hnds₂

/-- C1 (counterexample): two permutations of the same two-record input (the
records share the sort key `(1, 50)`) produce different `(title, outline)`
results, so `extract_outline` is not order-independent as claimed. -/
theorem c1_counterexample :
    ([c1lineA, c1lineB] : List LineRecord).Perm [c1lineB, c1lineA] ∧
      extract_outline [c1lineA, c1lineB] ≠ extract_outline [c1lineB, c1lineA] :=
  ⟨List.Perm.swap c1lineB c1lineA [], by decide⟩

/-- C1 (amended): feeding permutations of the same LineRecord set yields
identical output provided no two records share the sort key `(page, y0)`;
with duplicate keys the stable in-place sort, and hence the result, can
depend on the initial order. -/
theorem c1_order_independence (l₁ l₂ : List LineRecord) (hp : l₁.Perm l₂)
    (hnd : (l₁.map fun ld => (ld.page, ld.bbox.y0)).Nodup) :
    extract_outline l₁ = extract_outline l₂ := by
  have hsort := sortLines_eq_of_perm l₁ l₂ hp hnd
  rcases l₁ with _ | ⟨a, t⟩
  · rw [hp.nil_eq]
  · rcases l₂ with _ | ⟨b, t₂⟩
    · exact absurd hp.eq_nil (by simp)
    · simp only [extract_outline, List.isEmpty_cons, hsort]

/-- C1 (witness): the amended theorem applied to a concrete two-record input
with distinct sort keys. -/
theorem c1_order_independence_witness :
    extract_outline [w1lineA, w1lineB] = extract_outline [w1lineB, w1lineA] :=
  c1_order_independence [w1lineA, w1lineB] [w1lineB, w1lineA]
    (List.Perm.swap w1lineB w1lineA []) (by decide)

/- ## C2: the dedup invariant -/

theorem outlineStep_eq_or_append (info : GeneralFontInfo) (styles : FontStylesMap)
    (title : String) (st : List (String × String × ℤ) × List OutlineEntry) (ld : LineRecord) :
    outlineStep info styles title st ld = st ∨
      ∃ lvl ct, (ct, lvl, ld.page) ∉ st.1 ∧
        outlineStep info styles title st ld =
          ((ct, lvl, ld.page) :: st.1, st.2 ++ [⟨lvl, ct, ld.page⟩]) := by
  simp only [outlineStep]
  split
  · exact Or.inl rfl
  · split
    · exact Or.inl rfl
    · split
      · exact Or.inl rfl
      · split
        · exact Or.inl rfl
        · split
          · exact Or.inl rfl
          · rename_i lvl _ _ hnot
            exact Or.inr ⟨lvl, _, hnot, rfl⟩

theorem outlineFold_inv (info : GeneralFontInfo) (styles : FontStylesMap) (title : String)
    (l : List LineRecord) :
    ∀ st : List (String × String × ℤ) × List OutlineEntry,
      ((st.2.map entryKey).Nodup ∧ ∀ e ∈ st.2, entryKey e ∈ st.1) →
      (((l.foldl (outlineStep info styles title) st).2.map entryKey).Nodup ∧
        ∀ e ∈ (l.foldl (outlineStep info styles title) st).2,
          entryKey e ∈ (l.foldl (outlineStep info styles title) st).1) := by
  induction l with
  | nil => intro st h; exact h
  | cons a t ih =>
    intro st h
    rcases h with ⟨h1, h2⟩
    simp only [List.foldl_cons]
    rcases outlineStep_eq_or_append info styles title st a with heq | ⟨lvl, ct, hnot, heq⟩
    · rw [heq]; exact ih st ⟨h1, h2⟩
    · rw [heq]
      apply ih
      constructor
      · rw [List.map_append]
        rw [List.nodup_append]
        refine ⟨h1, by simp, ?_⟩
        intro x hx
        simp only [List.map_cons, List.map_nil, List.mem_singleton]
        intro hxk
        have hxin : x ∈ st.1 := by
          rcases List.mem_map.mp hx with ⟨e, he, hek⟩
          exact hek ▸ h2 e he
        rw [hxk] at hxin
        exact hnot hxin
      · intro e he
        rcases List.mem_append.mp he with he' | he'
        · exact List.mem_cons_of_mem _ (h2 e he')
        · simp only [List.mem_singleton] at he'
          subst he'
          exact List.mem_cons_self _ _

/-- C2: no two entries of any outline returned by `extract_outline` share the
same `(text, level, page)` triple. -/
theorem c2_dedup_invariant (l : List LineRecord) :
    (extract_outline l).2.Pairwise
      (fun e₁ e₂ => (e₁.text, e₁.level, e₁.page) ≠ (e₂.text, e₂.level, e₂.page)) := by
  have hkey : ∀ e : OutlineEntry, entryKey e = (e.text, e.level, e.page) := fun _ => rfl
  simp only [extract_outline]
  split
  · simp
  · simp only [assembleOutline]
    split
    · simp
    · rename_i info styles _
      have := outlineFold_inv info styles
        (findTitle info (sortLines l)) (sortLines l) ([], []) (by simp)
      have hnd := this.1
      have := List.pairwise_map.mp hnd
      exact this.imp (fun h => by simpa [entryKey] using h)

/- ## C3: degenerate input -/

/-- C3: on the empty LineRecord sequence, `extract_outline` returns exactly
the title "Untitled Document" and an empty outline. -/
theorem c3_degenerate_input :
    extract_outline ([] : List LineRecord) = ("Untitled Document", []) := rfl

/- ## C4: watermark suppression -/

/-- C4 (counterexample): a page-1 LineRecord whose text contains
"journal pre-proof" but also satisfies the primary corpus-specific title rule
becomes the returned title: `_is_title` performs no watermark check. -/
theorem c4_counterexample :
    extract_outline [c4line] =
      ("Journal Pre-proof Deep Support Vector Machine For Hyperspectral Image Classification",
        []) ∧
      strContains (lowerStr (extract_outline [c4line]).1) "journal pre-proof" = true :=
  ⟨by decide, by decide⟩

/-- C4 (amended): a LineRecord whose text contains "journal pre-proof" in any
casing never produces an outline entry (the outline loop skips it, leaving
the state unchanged), and is never collected as a fallback-title candidate;
but a line that also satisfies the primary corpus-specific title rule can
still supply the returned title. -/
theorem c4_watermark_suppression :
    (∀ (info : GeneralFontInfo) (styles : FontStylesMap) (title : String)
        (st : List (String × String × ℤ) × List OutlineEntry) (ld : LineRecord),
        strContains (lowerStr (strTrim ld.text)) "journal pre-proof" = true →
        outlineStep info styles title st ld = st) ∧
    (∀ (info : GeneralFontInfo) (lines : List LineRecord) (ld : LineRecord),
        ld ∈ potential_title_lines info lines →
        strContains (lowerStr (strTrim ld.text)) "journal pre-proof" = false) := by
  constructor
  · intro info styles title st ld h
    simp only [outlineStep, h]
    simp
  · intro info lines ld h
    have hpred := (List.mem_filter.mp h).2
    simp only [titleCandPred, Bool.and_eq_true, Bool.not_eq_true'] at hpred
    exact hpred.1.1.1.1.1.1.1.2

/-- C4 (witness): the amended theorem applied at concrete inputs: the
watermark-containing record `c4line` leaves the outline state unchanged, and
the concrete fallback candidate `c8line` carries no "journal pre-proof". -/
theorem c4_watermark_suppression_witness :
    outlineStep (generalInfoOf [c4line]) (fontStylesMapOf [c4line] (generalInfoOf [c4line]))
        "T" ([], []) c4line = ([], []) ∧
      strContains (lowerStr (strTrim c8line.text)) "journal pre-proof" = false :=
  ⟨c4_watermark_suppression.1 _ _ _ _ _ (by decide),
   c4_watermark_suppression.2 ⟨20, 50, 10⟩ [c8line] c8line (by decide)⟩

/- ## C5: level ordering of the inferred profile -/

theorem mem_potentialHeadingStyles_size (l : List LineRecord) (info : GeneralFontInfo)
    (si : StyleInfo) (h : si ∈ potentialHeadingStyles l info) : 8 ≤ si.signature.2.1 := by
  rcases List.mem_filterMap.mp h with ⟨g, _, hf⟩
  simp only [styleInfoOf] at hf
  split at hf
  · simp at hf
  · rename_i hcond
    push_neg at hcond
    split at hf
    · simp at hf
    · cases hf
      exact hcond.2

theorem assignFold_inv (styles : List StyleInfo) (hsz : ∀ si ∈ styles, 8 ≤ si.signature.2.1) :
    ∀ st : ℕ × StylesAcc, assignInv st → assignInv (styles.foldl assignStep st) := by
  induction styles with
  | nil => intro st h; exact h
  | cons si t ih =>
    intro st h
    simp only [List.foldl_cons]
    apply ih (fun s hs => hsz s (List.mem_cons_of_mem _ hs))
    have hsi : 8 ≤ si.signature.2.1 := hsz si (List.mem_cons_self _ _)
    obtain ⟨n, acc⟩ := st
    simp only [assignInv] at h
    obtain ⟨hA, hB, hC, hD, hE⟩ := h
    rcases n with _ | _ | _ | n
    · simp only [assignInv, assignStep]
      exact ⟨Or.inr hsi, hB, hC, hD, fun _ => by omega⟩
    · simp only [assignInv, assignStep]
      cases hH1 : acc.H1 with
      | none => exact ⟨hA, hB, hC, hD, hE⟩
      | some h1 =>
        by_cases hcond : si.signature.2.1 < acc.H1_size * 0.95 ∨
            si.signature.1 ≠ h1.1 ∨ si.signature.2.2 ≠ h1.2.2
        · simp only [if_pos hcond]
          refine ⟨hA, ?_, hC, ?_, ?_⟩
          · intro hcon; simp at hcon
          · intro hcon; simp at hcon
          · intro hcon; simp at hcon
        · simp only [if_neg hcond]
          exact ⟨hA, hB, hC, hD, hE⟩
    · simp only [assignInv, assignStep]
      cases hH2 : acc.H2 with
      | none => exact ⟨hA, hB, hC, hD, hE⟩
      | some h2 =>
        by_cases hcond : si.signature.2.1 < acc.H2_size * 0.95 ∨
            si.signature.1 ≠ h2.1 ∨ si.signature.2.2 ≠ h2.2.2
        · simp only [if_pos hcond]
          refine ⟨hA, ?_, ?_, ?_, ?_⟩
          · intro hcon; simp at hcon
          · intro hcon; simp at hcon
          · intro hcon; simp at hcon
          · intro hcon; simp at hcon
        · simp only [if_neg hcond]
          exact ⟨hA, hB, hC, hD, hE⟩
    · simp only [assignInv, assignStep]
      exact ⟨hA, hB, hC, hD, hE⟩

/-- C5 (counterexample): a three-style document on which the builder assigns
all three signatures, each occurring on one line, yet `H1_size < H2_size` and
`H1_x0_min > H2_x0_min`: the distinctness test of the assignment loop also
accepts a higher-scoring smaller-but-bold style above a larger one with a
different font name. -/
theorem c5_counterexample :
    (fontStylesMapOf c5doc (generalInfoOf c5doc)).H1 = some ("F-Bold", 10, true) ∧
    (fontStylesMapOf c5doc (generalInfoOf c5doc)).H2 = some ("F", 12, false) ∧
    (fontStylesMapOf c5doc (generalInfoOf c5doc)).H3 = some ("G", 11, false) ∧
    (linesForSig c5doc ("F-Bold", 10, true)).length = 1 ∧
    (linesForSig c5doc ("F", 12, false)).length = 1 ∧
    (linesForSig c5doc ("G", 11, false)).length = 1 ∧
    ¬((fontStylesMapOf c5doc (generalInfoOf c5doc)).H1_size ≥
        (fontStylesMapOf c5doc (generalInfoOf c5doc)).H2_size) ∧
    ¬((fontStylesMapOf c5doc (generalInfoOf c5doc)).H1_x0_min ≤
        (fontStylesMapOf c5doc (generalInfoOf c5doc)).H2_x0_min) := by
  refine ⟨by decide, by decide, by decide, by decide, by decide, by decide, by decide, by decide⟩

/-- C5 (amended): when at most the H1 signature is assigned from the input's
styles (`H2` left unassigned, hence `H2`/`H3` set by the fallbacks), the
resulting profile does satisfy `H1_size ≥ H2_size ≥ H3_size` and
`H1_x0_min ≤ H2_x0_min ≤ H3_x0_min`; with `H2` (or `H3`) assigned from an
occurring style neither chain is guaranteed. -/
theorem c5_level_ordering (l : List LineRecord)
    (h2 : (fontStylesMapOf l (generalInfoOf l)).H2 = none) :
    (fontStylesMapOf l (generalInfoOf l)).H1_size ≥
        (fontStylesMapOf l (generalInfoOf l)).H2_size ∧
      (fontStylesMapOf l (generalInfoOf l)).H2_size ≥
        (fontStylesMapOf l (generalInfoOf l)).H3_size ∧
      (fontStylesMapOf l (generalInfoOf l)).H1_x0_min ≤
        (fontStylesMapOf l (generalInfoOf l)).H2_x0_min ∧
      (fontStylesMapOf l (generalInfoOf l)).H2_x0_min ≤
        (fontStylesMapOf l (generalInfoOf l)).H3_x0_min := by
  have hsz : ∀ si ∈ sortedHeadingStyles l (generalInfoOf l), 8 ≤ si.signature.2.1 := by
    intro si hs
    exact mem_potentialHeadingStyles_size l (generalInfoOf l) si
      ((stableSort_perm stylePrecede (potentialHeadingStyles l (generalInfoOf l))).mem_iff.mp hs)
  have hinv := assignFold_inv (sortedHeadingStyles l (generalInfoOf l)) hsz (0, {})
    (by simp [assignInv])
  simp only [assignInv] at hinv
  obtain ⟨hA, hB, hC, hD, _⟩ := hinv
  have hm2 : (assignedStyles l (generalInfoOf l)).H2 = none := h2
  have h2sz : (assignedStyles l (generalInfoOf l)).H2_size = 0 := (hB hm2).1
  have h2x0 : (assignedStyles l (generalInfoOf l)).H2_x0 = none := (hB hm2).2
  have hm3 : (assignedStyles l (generalInfoOf l)).H3 = none := hD hm2
  have h3sz : (assignedStyles l (generalInfoOf l)).H3_size = 0 := (hC hm3).1
  have h3x0 : (assignedStyles l (generalInfoOf l)).H3_x0 = none := (hC hm3).2
  have hA' : (assignedStyles l (generalInfoOf l)).H1_size = 0 ∨
      8 ≤ (assignedStyles l (generalInfoOf l)).H1_size := hA
  simp only [fontStylesMapOf, applyFallbacks, h2sz, h2x0, hm3, h3sz, h3x0,
    Option.getD_none, if_pos rfl]
  split_ifs with hz hmx
  · exact ⟨by linarith, by linarith, by linarith, by linarith⟩
  · exact ⟨by linarith, by linarith, by linarith, by linarith⟩
  · have h8 : 8 ≤ (assignedStyles l (generalInfoOf l)).H1_size := by
      rcases hA' with h | h
      · exact absurd h hz
      · exact h
    exact ⟨by linarith, by linarith, by linarith, by linarith⟩

/-- C5 (witness): the amended theorem applied to the one-line document
`[w5line]`, on which only the H1 signature is assigned. -/
theorem c5_level_ordering_witness :
    (fontStylesMapOf [w5line] (generalInfoOf [w5line])).H1_size ≥
        (fontStylesMapOf [w5line] (generalInfoOf [w5line])).H2_size ∧
      (fontStylesMapOf [w5line] (generalInfoOf [w5line])).H2_size ≥
        (fontStylesMapOf [w5line] (generalInfoOf [w5line])).H3_size ∧
      (fontStylesMapOf [w5line] (generalInfoOf [w5line])).H1_x0_min ≤
        (fontStylesMapOf [w5line] (generalInfoOf [w5line])).H2_x0_min ∧
      (fontStylesMapOf [w5line] (generalInfoOf [w5line])).H2_x0_min ≤
        (fontStylesMapOf [w5line] (generalInfoOf [w5line])).H3_x0_min :=
  c5_level_ordering [w5line] (by decide)

/- ## C6: Scenario A -/

/-- C6 (counterexample): on the concrete Scenario-A input, the outline does
not contain `{level: H1, text: "Introduction", page: 1}`: the pattern
`^(\d+(\.\d+)*)\s+` requires a digit after each dot, so "1. Introduction"
never matches the numbered-section stage. -/
theorem c6_counterexample :
    extract_outline c6doc ≠
      ("Deep Support Vector Machine For Hyperspectral Image Classification",
        [⟨"H1", "Introduction", 1⟩]) := by decide

/-- C6 (amended): on the concrete Scenario-A input the title is the first
line's text, and the outline contains exactly one entry - but it is
`{level: H3, text: "1. Introduction", page: 1}`, produced by the style
fallback stage (the numbered-section regex does not match "1. Introduction",
and the size-14 line only clears the H3 thresholds of the inferred profile). -/
theorem c6_scenarioA :
    extract_outline c6doc =
      ("Deep Support Vector Machine For Hyperspectral Image Classification",
        [⟨"H3", "1. Introduction", 1⟩]) := by decide

/- ## C7: watermark group discard in the FontProfileBuilder -/

theorem mem_potentialHeadingStyles_not_watermark (l : List LineRecord)
    (info : GeneralFontInfo) (sig : FontSig)
    (hub : ((distinctPageCount (linesForSig l sig) : ℕ) : ℚ) > (distinctPageCount l : ℚ) * 0.7)
    (hwm : (linesForSig l sig).any
      (fun ld => strContains (lowerStr ld.text) "journal pre-proof") = true) :
    ∀ si ∈ potentialHeadingStyles l info, si.signature ≠ sig := by
  intro si h
  rcases List.mem_filterMap.mp h with ⟨g, _, hf⟩
  simp only [styleInfoOf] at hf
  split at hf
  · simp at hf
  · split at hf
    · simp at hf
    · rename_i hcond2
      cases hf
      intro hcontra
      simp only at hcontra
      rw [hcontra] at hcond2
      exact hcond2 ⟨hub, Or.inl hwm⟩

theorem assignStep_sig (n : ℕ) (acc : StylesAcc) (si : StyleInfo) :
    ((assignStep (n, acc) si).2.H1 = acc.H1 ∨ (assignStep (n, acc) si).2.H1 = some si.signature) ∧
      ((assignStep (n, acc) si).2.H2 = acc.H2 ∨ (assignStep (n, acc) si).2.H2 = some si.signature) ∧
      ((assignStep (n, acc) si).2.H3 = acc.H3 ∨ (assignStep (n, acc) si).2.H3 = some si.signature) := by
  rcases n with _ | _ | _ | n
  · simp [assignStep]
  · simp only [assignStep]
    cases h : acc.H1 with
    | none => simp [h]
    | some hh =>
      by_cases hcond : si.signature.2.1 < acc.H1_size * 0.95 ∨
          si.signature.1 ≠ hh.1 ∨ si.signature.2.2 ≠ hh.2.2
      · simp [if_pos hcond, h]
      · simp [if_neg hcond, h]
  · simp only [assignStep]
    cases h : acc.H2 with
    | none => simp [h]
    | some hh =>
      by_cases hcond : si.signature.2.1 < acc.H2_size * 0.95 ∨
          si.signature.1 ≠ hh.1 ∨ si.signature.2.2 ≠ hh.2.2
      · simp [if_pos hcond, h]
      · simp [if_neg hcond, h]
  · simp [assignStep]

theorem assignFold_sig_pres (sig : FontSig) (styles : List StyleInfo)
    (hns : ∀ si ∈ styles, si.signature ≠ sig) :
    ∀ st : ℕ × StylesAcc, st.2.H1 ≠ some sig → st.2.H2 ≠ some sig → st.2.H3 ≠ some sig →
      ((styles.foldl assignStep st).2.H1 ≠ some sig ∧
        (styles.foldl assignStep st).2.H2 ≠ some sig ∧
        (styles.foldl assignStep st).2.H3 ≠ some sig) := by
  induction styles with
  | nil => intro st h1 h2 h3; exact ⟨h1, h2, h3⟩
  | cons si t ih =>
    intro st h1 h2 h3
    obtain ⟨n, acc⟩ := st
    have hsi : si.signature ≠ sig := hns si (List.mem_cons_self _ _)
    simp only [List.foldl_cons]
    obtain ⟨e1, e2, e3⟩ := assignStep_sig n acc si
    apply ih (fun s hs => hns s (List.mem_cons_of_mem _ hs))
    · rcases e1 with h | h
      · rw [h]; exact h1
      · rw [h]; intro hcon; exact hsi (Option.some_inj.mp hcon)
    · rcases e2 with h | h
      · rw [h]; exact h2
      · rw [h]; intro hcon; exact hsi (Option.some_inj.mp hcon)
    · rcases e3 with h | h
      · rw [h]; exact h3
      · rw [h]; intro hcon; exact hsi (Option.some_inj.mp hcon)

/-- C7 (counterexample): on the two-page document `c7doc` the watermark group
(whose line "Journal Pre-proof" appears on only one of the two pages, i.e. on
at most 70% of them) survives the filter and becomes the H1 signature: the
watermark discard is only reachable inside the ubiquity branch. -/
theorem c7_counterexample :
    ((distinctPageCount (linesForSig c7doc c7sig) : ℕ) : ℚ) ≤ (distinctPageCount c7doc : ℚ) * 0.7 ∧
      (linesForSig c7doc c7sig).any
        (fun ld => strContains (lowerStr ld.text) "journal pre-proof") = true ∧
      (fontStylesMapOf c7doc (generalInfoOf c7doc)).H1 = some c7sig :=
  ⟨by decide, by decide, by decide⟩

/-- C7 (amended): a font-signature group one of whose member lines contains
"journal pre-proof" (case-insensitive) is excluded from heading-style
assignment whenever the group is ubiquitous, i.e. appears on more than 70% of
the document's pages; a watermark group on fewer pages can still be
assigned. -/
theorem c7_watermark_group_discard (l : List LineRecord) (sig : FontSig)
    (hub : ((distinctPageCount (linesForSig l sig) : ℕ) : ℚ) > (distinctPageCount l : ℚ) * 0.7)
    (hwm : (linesForSig l sig).any
      (fun ld => strContains (lowerStr ld.text) "journal pre-proof") = true) :
    (fontStylesMapOf l (generalInfoOf l)).H1 ≠ some sig ∧
      (fontStylesMapOf l (generalInfoOf l)).H2 ≠ some sig ∧
      (fontStylesMapOf l (generalInfoOf l)).H3 ≠ some sig := by
  have hns : ∀ si ∈ sortedHeadingStyles l (generalInfoOf l), si.signature ≠ sig := by
    intro si hs
    exact mem_potentialHeadingStyles_not_watermark l (generalInfoOf l) sig hub hwm si
      ((stableSort_perm stylePrecede (potentialHeadingStyles l (generalInfoOf l))).mem_iff.mp hs)
  have h := assignFold_sig_pres sig (sortedHeadingStyles l (generalInfoOf l)) hns (0, {})
    (by simp) (by simp) (by simp)
  exact h

/-- C7 (witness): the amended theorem applied to the one-page document made
of the watermark line alone, whose group is ubiquitous. -/
theorem c7_watermark_group_discard_witness :
    (fontStylesMapOf [c7lineW] (generalInfoOf [c7lineW])).H1 ≠ some c7sig ∧
      (fontStylesMapOf [c7lineW] (generalInfoOf [c7lineW])).H2 ≠ some c7sig ∧
      (fontStylesMapOf [c7lineW] (generalInfoOf [c7lineW])).H3 ≠ some c7sig :=
  c7_watermark_group_discard [c7lineW] c7sig (by decide) (by decide)

/- ## C8: fallback-title suppression -/

/-- C8 (counterexample): the 17-word bold page-1 line `c8line`, whose text
contains "manuscript", is collected as a fallback-title candidate and becomes
the returned title (the primary rule does not fire for it): the fallback
filter checks none of the markers "manuscript", "accepted manuscript",
"journal pre-print". -/
theorem c8_counterexample :
    extract_outline [c8line] = ("Accepted Manuscript w w w w w w w w w w w w w w w", []) ∧
      strContains (lowerStr (extract_outline [c8line]).1) "manuscript" = true ∧
      c8line ∈ potential_title_lines (generalInfoOf (sortLines [c8line])) (sortLines [c8line]) ∧
      _is_title (generalInfoOf (sortLines [c8line])) c8line = false :=
  ⟨by decide, by decide, by decide, by decide⟩

/-- C8 (amended): a fallback-title candidate is guaranteed free of
"journal pre-proof" and "highlights", is no math expression, has no
metadata-field prefix, no email address and no `(Author, Year)` citation;
the markers "manuscript", "accepted manuscript" and "journal pre-print" are
not among the fallback suppression checks, so lines containing them can still
become the fallback title. -/
theorem c8_fallback_suppression (info : GeneralFontInfo) (lines : List LineRecord)
    (ld : LineRecord) (h : ld ∈ potential_title_lines info lines) :
    strContains (lowerStr (strTrim ld.text)) "journal pre-proof" = false ∧
      strContains (lowerStr (strTrim ld.text)) "highlights" = false ∧
      _is_math_expression (strTrim ld.text) = false ∧
      startsMetadataField (lowerStr (strTrim ld.text)) = false ∧
      containsEmailChars (lowerStr (strTrim ld.text)).data = false ∧
      hasAuthorYearCitation (lowerStr (strTrim ld.text)).data = false := by
  have hpred := (List.mem_filter.mp h).2
  simp only [titleCandPred, Bool.and_eq_true, Bool.not_eq_true'] at hpred
  exact ⟨hpred.1.1.1.1.1.1.1.2, hpred.1.1.1.1.1.1.2, hpred.1.1.1.1.1.2,
    hpred.1.1.1.1.2, hpred.1.1.1.2, hpred.1.1.2⟩

/-- C8 (witness): the amended theorem applied to the concrete candidate
`c8line`. -/
theorem c8_fallback_suppression_witness :
    strContains (lowerStr (strTrim c8line.text)) "journal pre-proof" = false ∧
      strContains (lowerStr (strTrim c8line.text)) "highlights" = false ∧
      _is_math_expression (strTrim c8line.text) = false ∧
      startsMetadataField (lowerStr (strTrim c8line.text)) = false ∧
      containsEmailChars (lowerStr (strTrim c8line.text)).data = false ∧
      hasAuthorYearCitation (lowerStr (strTrim c8line.text)).data = false :=
  c8_fallback_suppression ⟨20, 50, 10⟩ [c8line] c8line (by decide)

/- ## C9: the input after the call -/

/-- C9 (counterexample): `extract_outline` sorts its input in place; after
the call on the two-record input `[c9lineX, c9lineY]` (given in reverse
reading order) the caller's list is `[c9lineY, c9lineX]`, not the original
order. -/
theorem c9_counterexample :
    extract_outline_post [c9lineX, c9lineY] ≠ [c9lineX, c9lineY] ∧
      extract_outline_post [c9lineX, c9lineY] = [c9lineY, c9lineX] :=
  ⟨by decide, by decide⟩

/-- C9 (amended): after the call the input list holds exactly the same
records with the same field values - it is a permutation of the original
(the in-place sort reorders but never mutates or drops a record) - though
in `(page, y0)` order rather than the original order. -/
theorem c9_input_preserved (l : List LineRecord) : (extract_outline_post l).Perm l := by
  unfold extract_outline_post
  split
  · exact List.Perm.refl l
  · exact stableSort_perm lineKeyLt l

/- ## C10: noninterference on the parser's auxiliary fields -/

theorem map_insertStable_parsed (a : ParsedLine) (l : List ParsedLine) :
    (insertStable parsedKeyLt a l).map ParsedLine.toLineRecord =
      insertStable lineKeyLt a.toLineRecord (l.map ParsedLine.toLineRecord) := by
  induction l with
  | nil => rfl
  | cons b t ih =>
    have hkey : parsedKeyLt b a = lineKeyLt b.toLineRecord a.toLineRecord := rfl
    by_cases h : parsedKeyLt b a = true
    · simp only [insertStable, if_pos h, List.map_cons, if_pos (hkey ▸ h), ih]
    · simp only [insertStable, if_neg h, List.map_cons, if_neg (hkey ▸ h)]

theorem map_sortParsedLines (l : List ParsedLine) :
    (sortParsedLines l).map ParsedLine.toLineRecord =
      sortLines (l.map ParsedLine.toLineRecord) := by
  induction l with
  | nil => rfl
  | cons a t ih =>
    simp only [sortParsedLines, sortLines, stableSort, List.map_cons] at *
    rw [map_insertStable_parsed, ih]

/-- C10: the result of the extractor on parser records depends only on the
five fields `text`, `font_name`, `font_size`, `bbox` and `page`: two inputs
agreeing on those fields (but differing in the parser-precomputed `is_bold`
and `font_name_lower` fields, including the variant bold definition that
counts any non-"roman" font as bold) produce identical `(title, outline)`
results, because the extractor recomputes boldness from `font_name` alone and
never reads the precomputed fields. -/
theorem c10_noninterference (l₁ l₂ : List ParsedLine)
    (h : l₁.map ParsedLine.toLineRecord = l₂.map ParsedLine.toLineRecord) :
    extract_outline_parsed l₁ = extract_outline_parsed l₂ := by
  have hemp : l₁.isEmpty = l₂.isEmpty := by
    cases l₁ <;> cases l₂ <;> simp_all
  simp only [extract_outline_parsed, map_sortParsedLines, h, hemp]

/-- C10 (witness): two concrete one-record inputs agreeing on the five
extractor-visible fields but differing in `is_bold` and `font_name_lower`
yield the same result. -/
theorem c10_noninterference_witness :
    extract_outline_parsed [w10lineA] = extract_outline_parsed [w10lineB] :=
  c10_noninterference [w10lineA] [w10lineB] (by decide)
